import Mathlib

/-!
Shallow embedding of the genome-scanning core of `src/app.py`
(class `GenomeAnalyzer`): the sliding-window generator, the window
acceptance filter, the pattern annotator and the scan orchestrator.

Python strings are modelled as `List Char`, Python floats as `ℚ`
(only order comparisons and exact small-denominator arithmetic occur),
Python ints as `Nat`/`Int` with Python floor-division (`Int.fdiv`) and
`int()` truncation (`pyInt`) made explicit.  The RNA folding oracle
`RNA.fold` is an external collaborator and is passed in as a function
returning `Except Unit (List Char × ℚ)`; `Except.error` models the
oracle raising an exception.  `np.random.choice(pop, size=k,
replace=False)` is passed in as a function `choice : List Nat → Nat →
List Nat`; the predicate `ValidChoice` states the guarantees numpy
gives for it (correct size, elements drawn from the population,
distinct when the population is duplicate-free).
-/

set_option linter.unusedVariables false

namespace RnaApp

/-- Python `needle == s[:len(needle)]`, i.e. `s.startswith(needle)`
restricted to full-prefix matching of a literal. -/
def isPrefixList : List Char → List Char → Bool
  | [], _ => true
  | _ :: _, [] => false
  | p :: ps, c :: cs => p == c && isPrefixList ps cs

/-- Python `s.endswith(needle)` for a literal needle. -/
def isSuffixList (needle s : List Char) : Bool :=
  isPrefixList needle.reverse s.reverse

/-- Python `s.count(c)` for a single character `c`. -/
def countChar (s : List Char) (c : Char) : Nat :=
  (s.filter fun x => x == c).length

/-- Python slice-index resolution: a negative index counts from the end
(clamped at 0), a nonnegative index is clamped at the length. -/
def pyIdx (len : Nat) (i : Int) : Nat :=
  if i < 0 then ((len : Int) + i).toNat else min i.toNat len

/-- Python `s[a:b]` (with possibly negative bounds). -/
def pySlice (s : List Char) (a b : Int) : List Char :=
  (s.take (pyIdx s.length b)).drop (pyIdx s.length a)

/-- Python `s[a:]` (with a possibly negative bound). -/
def pySliceFrom (s : List Char) (a : Int) : List Char :=
  s.drop (pyIdx s.length a)

/-- Python `int()` applied to a real number: truncation toward zero. -/
def pyInt (q : ℚ) : Int :=
  if q < 0 then Int.ceil q else Int.floor q

/-- Python `range(0, stop, step)` for a possibly negative `stop` and a
positive `step`: the list `[0, step, 2*step, ...]` of all multiples of
`step` below `stop`. -/
def pyRangeStep (stop : Int) (step : Nat) : List Nat :=
  (List.range ((stop.toNat + step - 1) / step)).map (· * step)

/-- One motif match recorded by the annotator: the dictionary
`dict(position = pos, sequence = seq[pos:pos + len(motif)])`. -/
structure MotifHit where
  position : Nat
  sequence : List Char
deriving DecidableEq

/-- One GC-rich window recorded by the annotator: the dictionary
`dict(position = i, sequence = window, gc_content = gc_content)`. -/
structure GCRegion where
  position : Nat
  sequence : List Char
  gc_content : ℚ
deriving DecidableEq

/-- The `patterns[polypyrimidine_tract]` sub-dictionary. -/
structure PolypyrimidineTract where
  sequence : List Char
  score : ℚ
deriving DecidableEq

/-- The dictionary returned by `analyze_sequence_patterns`. -/
structure PatternAnalysis where
  splice_donor : List Char
  splice_acceptor : List Char
  polypyrimidine_tract : PolypyrimidineTract
  branch_points : List MotifHit
  enhancers : List MotifHit
  silencers : List MotifHit
  gc_rich_regions : List GCRegion
deriving DecidableEq

/-- The result dictionary built by `analyze_sequence` for an accepted
window (a candidate intron). `structure'` is the dot-bracket string
returned by the folding oracle (`structure` is a Lean keyword). -/
structure Candidate where
  sequence : List Char
  length : Nat
  gc_content : ℚ
  delta_g : ℚ
  structure' : List Char
  splice_site_5 : List Char
  splice_site_3 : List Char
  polypyrimidine_tract_score : ℚ
  branch_points : Nat
  enhancers : Nat
  silencers : Nat
  gc_rich_regions : Nat
  pattern_analysis : PatternAnalysis
deriving DecidableEq

/-- The state of `GenomeAnalyzer` used by the scanning core: the loaded
genome string (`self.sequence`).  The `results` attribute set in
`__init__` is never read by the scanning methods and is omitted. -/
structure GenomeAnalyzer where
  sequence : List Char

/-- The folding oracle `RNA.fold`: returns a (structure, energy) pair
or raises (modelled by `Except.error ()`). -/
def Oracle : Type :=
  List Char → Except Unit (List Char × ℚ)

/-- `branch_point_motifs`: YNYTRAY, YNYYRAY, YNCTRAC. -/
def branch_point_motifs : List (List Char) :=
  [['Y','N','Y','T','R','A','Y'], ['Y','N','Y','Y','R','A','Y'],
   ['Y','N','C','T','R','A','C']]

/-- `enhancer_motifs`: GGAGG and the ten-Y polypyrimidine pattern. -/
def enhancer_motifs : List (List Char) :=
  [['G','G','A','G','G'],
   ['Y','Y','Y','Y','Y','Y','Y','Y','Y','Y']]

/-- `silencer_motifs`: TCCTC, TGCATG. -/
def silencer_motifs : List (List Char) :=
  [['T','C','C','T','C'], ['T','G','C','A','T','G']]

/-- `seq.upper().replace('U', 'T')`. -/
def normalizeSeq (s : List Char) : List Char :=
  (s.map Char.toUpper).map fun c => if c == 'U' then 'T' else c

/-- Does `motif` occur in `s` starting at index `pos`? -/
def matchesAt (s motif : List Char) (pos : Nat) : Bool :=
  isPrefixList motif (s.drop pos)

/-- `_find_motif_positions(seq, motif)`: the `while`-loop repeatedly
calls `seq.find(motif, pos)` and advances `pos` by one past each hit,
so it collects every occurrence position of `motif` in `seq`, in
increasing order.  (`str.find` never reports a start index beyond
`len(seq)`, hence the `length + 1` bound.) -/
def find_motif_positions (s motif : List Char) : List Nat :=
  (List.range (s.length + 1)).filter fun pos => matchesAt s motif pos

/-- The per-catalogue search loop of `analyze_sequence_patterns`: for
each motif, extend the list with one entry per found position. -/
def motifHits (s : List Char) (motifs : List (List Char)) : List MotifHit :=
  motifs.flatMap fun motif =>
    (find_motif_positions s motif).map fun pos =>
      ⟨pos, (s.drop pos).take motif.length⟩

/-- The GC-rich scan of `analyze_sequence_patterns`: every window of 10
symbols whose G/C fraction strictly exceeds 0.6, with its offset.
Python `range(len(seq) - window_size + 1)` is empty for short
sequences, hence the `Int` subtraction before `toNat`. -/
def gcRichRegions (seq : List Char) : List GCRegion :=
  (List.range (((seq.length : Int) - 10 + 1).toNat)).filterMap fun i =>
    let window := (seq.drop i).take 10
    let gc_content : ℚ :=
      ((countChar window 'G' : ℚ) + (countChar window 'C' : ℚ)) / 10
    if (6 : ℚ) / 10 < gc_content then some ⟨i, window, gc_content⟩
    else none

/-- `GenomeAnalyzer.analyze_sequence_patterns(seq)`. -/
def analyze_sequence_patterns (seq0 : List Char) : PatternAnalysis :=
  let seq := normalizeSeq seq0
  { splice_donor := pySlice seq 0 6
    splice_acceptor := pySliceFrom seq (-15)
    polypyrimidine_tract :=
      { sequence := pySlice seq (-15) (-3)
        score := (((countChar (pySlice seq (-15) (-3)) 'C' : ℚ)) +
          (countChar (pySlice seq (-15) (-3)) 'T' : ℚ)) / 12 }
    branch_points := motifHits seq branch_point_motifs
    enhancers := motifHits seq enhancer_motifs
    silencers := motifHits seq silencer_motifs
    gc_rich_regions := gcRichRegions seq }

/-- `GenomeAnalyzer.analyze_sequence(seq, delta_g_threshold)`: the
window acceptance filter.  The `try`/`except` block around the oracle
call is modelled by the `Except` match: an oracle exception yields
`none`. -/
def analyze_sequence (oracle : Oracle) (seq : List Char)
    (delta_g_threshold : ℚ) : Option Candidate :=
  if seq.length < 50 then none
  else if !((isPrefixList ['G','T'] seq || isPrefixList ['G','U'] seq) &&
      isSuffixList ['A','G'] seq) then none
  else
    match oracle seq with
    | Except.error _ => none
    | Except.ok (structure', mfe) =>
      if delta_g_threshold ≤ mfe then none
      else
        let patterns := analyze_sequence_patterns seq
        some
          { sequence := seq
            length := seq.length
            gc_content :=
              ((countChar seq 'G' : ℚ) + (countChar seq 'C' : ℚ)) /
                (seq.length : ℚ) * 100
            delta_g := mfe
            structure' := structure'
            splice_site_5 := patterns.splice_donor
            splice_site_3 := patterns.splice_acceptor
            polypyrimidine_tract_score := patterns.polypyrimidine_tract.score
            branch_points := patterns.branch_points.length
            enhancers := patterns.enhancers.length
            silencers := patterns.silencers.length
            gc_rich_regions := patterns.gc_rich_regions.length
            pattern_analysis := patterns }

/-- The inner fan-out of `sliding_window`: for a base offset `idx`, the
sub-window lengths `range(window_size, min(window_size + 100,
sequence_length - idx))`. -/
def fanLengths (sequence_length window_size idx : Nat) : List Nat :=
  (List.range (min (window_size + 100) (sequence_length - idx) -
    window_size)).map (window_size + ·)

/-- The full-density offset progression of `sliding_window`:
`range(0, sequence_length - window_size + 1, step_size)`. -/
def fullProgression (sequence_length window_size step_size : Nat) : List Nat :=
  pyRangeStep ((sequence_length : Int) - window_size + 1) step_size

/-- `total_windows = (sequence_length - window_size + 1) // step_size`
as computed by `sliding_window` (Python floor division). -/
def totalWindowsGen (sequence_length window_size step_size : Nat) : Int :=
  Int.fdiv ((sequence_length : Int) - window_size + 1) step_size

/-- `sample_size = int(total_windows * (sample_percentage / 100))` as
computed by `sliding_window`. -/
def sampleSize (sequence_length window_size step_size : Nat)
    (sample_percentage : ℚ) : Int :=
  pyInt ((totalWindowsGen sequence_length window_size step_size : ℚ) *
    (sample_percentage / 100))

/-- The base-offset stream of `GenomeAnalyzer.sliding_window`: the
`indices` value of the source.  Full-density mode uses
`range(0, sequence_length - window_size + 1, step_size)`; sub-sampled
mode (`sample_percentage < 100`) draws `sample_size` offsets from that
same range via `np.random.choice(..., replace=False)` (the `choice`
argument).  Raises (`Except.error`) exactly when no genome is
loaded. -/
def swIndices (a : GenomeAnalyzer) (window_size step_size : Nat)
    (sample_percentage : ℚ) (choice : List Nat → Nat → List Nat) :
    Except String (List Nat) :=
  if a.sequence = [] then Except.error "No genome loaded"
  else if sample_percentage < 100 then
    Except.ok (choice
      (fullProgression a.sequence.length window_size step_size)
      (sampleSize a.sequence.length window_size step_size
        sample_percentage).toNat)
  else
    Except.ok (fullProgression a.sequence.length window_size step_size)

/-- `GenomeAnalyzer.sliding_window(window_size, step_size,
sample_percentage)`: the full window stream, as the list of yielded
window strings — each base offset fans out into windows of each length
in `fanLengths`. -/
def sliding_window (a : GenomeAnalyzer) (window_size step_size : Nat)
    (sample_percentage : ℚ) (choice : List Nat → Nat → List Nat) :
    Except String (List (List Char)) :=
  Except.map
    (fun indices => indices.flatMap fun idx =>
      (fanLengths a.sequence.length window_size idx).map fun len =>
        (a.sequence.drop idx).take len)
    (swIndices a window_size step_size sample_percentage choice)

/-- The window stream actually evaluated by
`GenomeAnalyzer.process_genome_introns`: `total_windows =
(len(sequence) - window_size) // step_size` (scaled by
`sample_percentage / 100` through `int()` when sampling), and the loop
slices `self.sequence[i:i + window_size]` for
`i in range(0, total_windows * step_size, step_size)`. -/
def orchestratorWindows (a : GenomeAnalyzer) (window_size step_size : Nat)
    (sample_percentage : ℚ) : List (List Char) :=
  let seq_length := a.sequence.length
  let tw : Int := Int.fdiv ((seq_length : Int) - window_size) step_size
  let total_windows : Int :=
    if sample_percentage < 100 then pyInt ((tw : ℚ) * (sample_percentage / 100))
    else tw
  (pyRangeStep (total_windows * step_size) step_size).map fun i =>
    (a.sequence.drop i).take window_size

/-- The orchestration state handed back by `process_genome_introns`:
the accumulated candidate list (stored into
`st.session_state.results_df`), the number of windows processed, and
the cancellation flag.  The Python return value is the pair
`(len(results), cancelled)`. -/
structure ScanOutcome where
  results : List Candidate
  processed : Nat
  cancelled : Bool
deriving DecidableEq

/-- The `for i in range(...)` loop of `process_genome_introns`.  The
Streamlit stop button consulted at the top of each iteration is
modelled as a cancellation flag `cancel` polled once per iteration,
indexed by the number of windows processed so far; when it reads true
the loop returns the results accumulated so far with the flag set. -/
def scanLoop (oracle : Oracle) (cancel : Nat → Bool) (delta_g : ℚ) :
    List (List Char) → List Candidate → Nat → ScanOutcome
  | [], results, processed => ⟨results, processed, false⟩
  | seq :: rest, results, processed =>
    if cancel processed then ⟨results, processed, true⟩
    else
      scanLoop oracle cancel delta_g rest
        (match analyze_sequence oracle seq delta_g with
         | some r => results ++ [r]
         | none => results)
        (processed + 1)

/-- `GenomeAnalyzer.process_genome_introns(window_size, step_size,
sample_percentage, delta_g, min_intron_length, max_intron_length)`: the
scan orchestrator.  The two intron-length parameters are accepted (with
source defaults 50 and 150) but, as in the source, never used. -/
def process_genome_introns (a : GenomeAnalyzer) (oracle : Oracle)
    (cancel : Nat → Bool) (window_size step_size : Nat)
    (sample_percentage delta_g : ℚ)
    (min_intron_length max_intron_length : Nat) : ScanOutcome :=
  scanLoop oracle cancel delta_g
    (orchestratorWindows a window_size step_size sample_percentage) [] 0

/-- A deterministic stand-in for `np.random.choice(pop, size=k,
replace=False)`: take the first `k` elements. -/
def takeChoice (pop : List Nat) (k : Nat) : List Nat :=
  pop.take k

/-- What `np.random.choice(pop, size=k, replace=False)` guarantees
whenever `k` does not exceed the population size: `k` results, all
drawn from `pop`, pairwise distinct when `pop` has no duplicates. -/
def ValidChoice (f : List Nat → Nat → List Nat) : Prop :=
  ∀ pop k, k ≤ pop.length →
    (f pop k).length = k ∧ (∀ x ∈ f pop k, x ∈ pop) ∧
      (pop.Nodup → (f pop k).Nodup)

/-- An oracle that always succeeds with a fixed response. -/
def constOracle (structure' : List Char) (energy : ℚ) : Oracle :=
  fun _ => Except.ok (structure', energy)

/-- An oracle that always raises. -/
def failOracle : Oracle :=
  fun _ => Except.error ()

instance {ε α : Type} [DecidableEq ε] [DecidableEq α] :
    DecidableEq (Except ε α) := fun
  | Except.error a, Except.error b =>
    match decEq a b with
    | isTrue h => isTrue (by rw [h])
    | isFalse h => isFalse (fun hc => h (by cases hc; rfl))
  | Except.error _, Except.ok _ => isFalse (fun hc => by cases hc)
  | Except.ok _, Except.error _ => isFalse (fun hc => by cases hc)
  | Except.ok a, Except.ok b =>
    match decEq a b with
    | isTrue h => isTrue (by rw [h])
    | isFalse h => isFalse (fun hc => h (by cases hc; rfl))

/-! Helper lemmas. -/

lemma takeChoice_valid : ValidChoice takeChoice := by
  intro pop k hk
  refine ⟨?_, ?_, ?_⟩
  · simp [takeChoice, List.length_take]
    omega
  · intro x hx
    exact List.mem_of_mem_take hx
  · intro hnd
    exact List.Nodup.sublist (List.take_sublist _ _) hnd

lemma isPrefixList_mem {m t : List Char} (h : isPrefixList m t = true) :
    ∀ c ∈ m, c ∈ t := by
  induction m generalizing t with
  | nil => intro c hc; cases hc
  | cons p ps ih =>
    cases t with
    | nil => simp [isPrefixList] at h
    | cons c cs =>
      simp only [isPrefixList, Bool.and_eq_true, beq_iff_eq] at h
      intro x hx
      rcases List.mem_cons.mp hx with rfl | hx
      · rw [h.1]; exact List.mem_cons_self _ _
      · exact List.mem_cons_of_mem _ (ih h.2 x hx)

lemma isPrefixList_take {m t : List Char} (h : isPrefixList m t = true) :
    t.take m.length = m := by
  induction m generalizing t with
  | nil => rfl
  | cons p ps ih =>
    cases t with
    | nil => simp [isPrefixList] at h
    | cons c cs =>
      simp only [isPrefixList, Bool.and_eq_true, beq_iff_eq] at h
      simp [List.length_cons, List.take_succ_cons, ih h.2, h.1]

lemma find_motif_positions_pairwise (s motif : List Char) :
    (find_motif_positions s motif).Pairwise (· < ·) :=
  (List.pairwise_lt_range _).sublist (List.filter_sublist _)

lemma mem_find_motif_positions {s motif : List Char} {p : Nat}
    (h : p ∈ find_motif_positions s motif) : matchesAt s motif p = true :=
  (List.mem_filter.mp h).2

lemma find_motif_positions_eq_nil {s motif : List Char} {c : Char}
    (hc : c ∈ motif) (hs : c ∉ s) : find_motif_positions s motif = [] := by
  rw [find_motif_positions, List.filter_eq_nil_iff]
  intro p hp hmatch
  exact hs (List.mem_of_mem_drop (isPrefixList_mem hmatch c hc))

lemma motifHits_pairs_eq (s : List Char) (motifs : List (List Char)) :
    (motifHits s motifs).map (fun x => (x.position, x.sequence)) =
      motifs.flatMap fun m =>
        (find_motif_positions s m).map fun pos => (pos, m) := by
  induction motifs with
  | nil => rfl
  | cons m ms ih =>
    simp only [motifHits, List.flatMap_cons, List.map_append, List.map_map]
      at ih ⊢
    rw [ih]
    congr 1
    refine List.map_congr_left fun p hp => ?_
    have := isPrefixList_take (mem_find_motif_positions hp)
    simp only [Function.comp_apply]
    rw [this]

lemma motifHits_pairs_nodup (s : List Char) (motifs : List (List Char))
    (h : motifs.Nodup) :
    ((motifHits s motifs).map fun x => (x.position, x.sequence)).Nodup := by
  rw [motifHits_pairs_eq, List.nodup_flatMap]
  constructor
  · intro m hm
    exact List.Nodup.map (fun a b hab => congrArg Prod.fst hab)
      ((find_motif_positions_pairwise s m).imp fun hlt => Nat.ne_of_lt hlt)
  · refine h.imp fun hne => ?_
    intro x hx1 hx2
    rcases List.mem_map.mp hx1 with ⟨p1, -, rfl⟩
    rcases List.mem_map.mp hx2 with ⟨p2, -, h2⟩
    exact hne (congrArg Prod.snd h2).symm

lemma filterMap_eq_filter_map {α β : Type} (l : List α) (f : α → Option β)
    (p : α → Bool) (g : α → β)
    (hf : ∀ i, f i = if p i then some (g i) else none) :
    l.filterMap f = (l.filter p).map g := by
  induction l with
  | nil => rfl
  | cons a t ih =>
    rw [List.filterMap_cons, List.filter_cons]
    cases hpa : p a with
    | true => simp [hf a, hpa, ih]
    | false => simp [hf a, hpa, ih]

lemma gcRichRegions_eq (s : List Char) :
    gcRichRegions s =
      ((List.range (((s.length : Int) - 10 + 1).toNat)).filter fun i =>
        decide ((6 : ℚ) / 10 <
          ((countChar ((s.drop i).take 10) 'G' : ℚ) +
            (countChar ((s.drop i).take 10) 'C' : ℚ)) / 10)).map fun i =>
        (⟨i, (s.drop i).take 10,
          ((countChar ((s.drop i).take 10) 'G' : ℚ) +
            (countChar ((s.drop i).take 10) 'C' : ℚ)) / 10⟩ : GCRegion) := by
  rw [gcRichRegions]
  refine filterMap_eq_filter_map _ _ _ _ fun i => ?_
  by_cases hgc : (6 : ℚ) / 10 <
      ((countChar ((s.drop i).take 10) 'G' : ℚ) +
        (countChar ((s.drop i).take 10) 'C' : ℚ)) / 10 <;>
    simp [hgc]

lemma gcRichRegions_positions_eq (s : List Char) :
    (gcRichRegions s).map GCRegion.position =
      (List.range (((s.length : Int) - 10 + 1).toNat)).filter fun i =>
        decide ((6 : ℚ) / 10 <
          ((countChar ((s.drop i).take 10) 'G' : ℚ) +
            (countChar ((s.drop i).take 10) 'C' : ℚ)) / 10) := by
  rw [gcRichRegions_eq, List.map_map]
  exact List.map_id _

lemma gcRichRegions_positions_pairwise (s : List Char) :
    ((gcRichRegions s).map GCRegion.position).Pairwise (· < ·) := by
  rw [gcRichRegions_positions_eq]
  exact (List.pairwise_lt_range _).sublist (List.filter_sublist _)

lemma patterns_branch_points (seq0 : List Char) :
    (analyze_sequence_patterns seq0).branch_points =
      motifHits (normalizeSeq seq0) branch_point_motifs := rfl

lemma patterns_enhancers (seq0 : List Char) :
    (analyze_sequence_patterns seq0).enhancers =
      motifHits (normalizeSeq seq0) enhancer_motifs := rfl

lemma patterns_silencers (seq0 : List Char) :
    (analyze_sequence_patterns seq0).silencers =
      motifHits (normalizeSeq seq0) silencer_motifs := rfl

lemma patterns_gc_rich_regions (seq0 : List Char) :
    (analyze_sequence_patterns seq0).gc_rich_regions =
      gcRichRegions (normalizeSeq seq0) := rfl

lemma pyRangeStep_length (stop : Int) (step : Nat) :
    (pyRangeStep stop step).length = (stop.toNat + step - 1) / step := by
  simp [pyRangeStep]

lemma pyRangeStep_pairwise (stop : Int) (step : Nat) (hs : 1 ≤ step) :
    (pyRangeStep stop step).Pairwise (· < ·) := by
  rw [pyRangeStep, List.pairwise_map]
  exact (List.pairwise_lt_range _).imp fun h =>
    mul_lt_mul_of_pos_right h (by omega)

lemma pyRangeStep_nodup (stop : Int) (step : Nat) (hs : 1 ≤ step) :
    (pyRangeStep stop step).Nodup :=
  (pyRangeStep_pairwise stop step hs).imp fun h => Nat.ne_of_lt h

lemma mem_pyRangeStep_lt {stop : Int} {step x : Nat} (hs : 1 ≤ step)
    (hx : x ∈ pyRangeStep stop step) : x < stop.toNat := by
  rw [pyRangeStep] at hx
  rcases List.mem_map.mp hx with ⟨k, hk, rfl⟩
  rw [List.mem_range] at hk
  have h3 : (k + 1) * step ≤ stop.toNat + step - 1 :=
    (Nat.le_div_iff_mul_le (by omega)).mp hk
  have h4 : (k + 1) * step = k * step + step := by ring
  rw [h4] at h3
  have h5 : 1 ≤ stop.toNat := by
    by_contra hcon
    have h0 : stop.toNat = 0 := by omega
    rw [h0] at hk
    have : (0 + step - 1) / step = 0 := Nat.div_eq_of_lt (by omega)
    omega
  have hgoal : k * step < stop.toNat := by omega
  exact hgoal

lemma sampleSize_nonneg (L w s : Nat) (p : ℚ) (hp0 : 0 ≤ p) :
    0 ≤ sampleSize L w s p ∨ totalWindowsGen L w s < 0 := by
  rcases lt_or_le (totalWindowsGen L w s) 0 with h | h
  · exact Or.inr h
  · left
    have hq0 : (0:ℚ) ≤ (totalWindowsGen L w s : ℚ) * (p / 100) := by
      apply mul_nonneg
      · exact_mod_cast h
      · positivity
    rw [sampleSize, pyInt, if_neg (not_lt.mpr hq0)]
    exact Int.floor_nonneg.mpr hq0

lemma sampleSize_le (L w s : Nat) (p : ℚ) (hw : w ≤ L) (hs : 1 ≤ s)
    (hp0 : 0 ≤ p) (hp1 : p < 100) :
    (sampleSize L w s p).toNat ≤ (fullProgression L w s).length := by
  have hM : ((L : Int) - w + 1) = ((L - w + 1 : Nat) : Int) := by omega
  have htot : totalWindowsGen L w s = (((L - w + 1) / s : Nat) : Int) := by
    rw [totalWindowsGen, hM]
    exact (Int.ofNat_fdiv _ _).symm
  have hq0 : (0:ℚ) ≤ (totalWindowsGen L w s : ℚ) * (p / 100) := by
    rw [htot]
    apply mul_nonneg
    · positivity
    · positivity
  have hqle : (totalWindowsGen L w s : ℚ) * (p / 100) ≤
      (((L - w + 1) / s : Nat) : ℚ) := by
    rw [htot]
    push_cast
    apply mul_le_of_le_one_right
    · positivity
    · rw [div_le_one (by norm_num)]
      exact le_of_lt hp1
  have hss : sampleSize L w s p ≤ (((L - w + 1) / s : Nat) : Int) := by
    rw [sampleSize, pyInt, if_neg (not_lt.mpr hq0)]
    calc Int.floor ((totalWindowsGen L w s : ℚ) * (p / 100)) ≤
        Int.floor ((((L - w + 1) / s : Nat) : Int) : ℚ) := by
          apply Int.floor_le_floor
          push_cast
          exact hqle
      _ = (((L - w + 1) / s : Nat) : Int) := Int.floor_intCast _
  have h1 : (sampleSize L w s p).toNat ≤ (L - w + 1) / s := by
    have h2 := Int.toNat_le_toNat hss
    rwa [Int.toNat_natCast] at h2
  have hlen : (fullProgression L w s).length = (L - w + 1 + s - 1) / s := by
    rw [fullProgression, pyRangeStep_length]
    congr 1
    omega
  rw [hlen]
  calc (sampleSize L w s p).toNat ≤ (L - w + 1) / s := h1
    _ ≤ (L - w + 1 + s - 1) / s := Nat.div_le_div_right (by omega)

lemma scanLoop_cancel (oracle : Oracle) (cancel : Nat → Bool) (dg : ℚ) :
    ∀ (N : Nat) (stream : List (List Char)) (res : List Candidate)
      (proc : Nat),
      (∀ k, k < N → cancel (proc + k) = false) → cancel (proc + N) = true →
      N < stream.length →
      scanLoop oracle cancel dg stream res proc =
        ⟨res ++ (stream.take N).filterMap
          (fun q => analyze_sequence oracle q dg), proc + N, true⟩ := by
  intro N
  induction N with
  | zero =>
    intro stream res proc h1 h2 h3
    cases stream with
    | nil => simp at h3
    | cons q rest =>
      rw [Nat.add_zero] at h2
      rw [scanLoop, if_pos h2]
      simp
  | succ n ih =>
    intro stream res proc h1 h2 h3
    cases stream with
    | nil => simp at h3
    | cons q rest =>
      have hc0 : cancel proc = false := by
        have := h1 0 (Nat.succ_pos n)
        simpa using this
      rw [scanLoop, if_neg (by simp [hc0])]
      have ih2 := ih rest
        (match analyze_sequence oracle q dg with
         | some r => res ++ [r] | none => res) (proc + 1)
        (fun k hk => by
          have := h1 (k + 1) (by omega)
          rwa [show proc + (k + 1) = proc + 1 + k by omega] at this)
        (by rwa [show proc + 1 + n = proc + (n + 1) by omega])
        (by simpa using h3)
      rw [ih2]
      cases hres : analyze_sequence oracle q dg with
      | some r =>
        simp [hres, List.take_succ_cons, List.filterMap_cons,
          ScanOutcome.mk.injEq]
        try omega
      | none =>
        simp [hres, List.take_succ_cons, List.filterMap_cons,
          ScanOutcome.mk.injEq]
        try omega

/-! Concrete inputs used by witnesses and counterexamples. -/

/-- The spec example window: `"GT" + "A"*46 + "AG"` (length 50). -/
def exampleWindow : List Char :=
  ['G','T'] ++ List.replicate 46 'A' ++ ['A','G']

/-- An 8-symbol genome used for orchestrator witnesses. -/
def genome8 : List Char := ['G','T','A','C','G','T','A','C']

/-- A 7-symbol genome on which the generator stream and the
orchestrator stream visibly differ. -/
def genome7 : List Char := ['G','T','A','C','G','T','A']

/-- A 50-symbol genome (boundary case `window_size = length`). -/
def genome50 : List Char := List.replicate 50 'A'

/-- A 52-symbol genome (`total_windows = 3` for `window_size = 50`,
`step_size = 1`). -/
def genome52 : List Char := List.replicate 52 'A'

/-- A 4-symbol genome, shorter than any valid window. -/
def genome4 : List Char := ['A','C','G','T']

/-- A sequence with a `TGCATG` silencer before a `TCCTC` silencer. -/
def silencerSeq : List Char :=
  ['T','G','C','A','T','G','T','C','C','T','C']

/-- A short nucleotide sequence containing a `GGAGG` enhancer. -/
def nucleotideSeq : List Char :=
  ['G','G','A','G','G','a','c','g','t','U','u','T']

/-- The nucleotide alphabet of claim C10, both cases. -/
def nucleotide_alphabet : List Char :=
  ['A','C','G','T','U','a','c','g','t','u']

/-! Claim theorems. -/

/-- C1: for every window sequence `s`, threshold `t` and successful
oracle response `(structure', e)`, the window acceptance filter
`analyze_sequence` returns a candidate if and only if `s` has length at
least 50, starts with `"GT"` or `"GU"`, ends with `"AG"`, and the
energy `e` is strictly below the threshold `t`; in every other case it
returns `none`. -/
theorem analyze_sequence_accepts_iff (oracle : Oracle) (s : List Char)
    (t : ℚ) (structure' : List Char) (e : ℚ)
    (h : oracle s = Except.ok (structure', e)) :
    (analyze_sequence oracle s t).isSome = true ↔
      (50 ≤ s.length ∧
        (isPrefixList ['G','T'] s = true ∨ isPrefixList ['G','U'] s = true) ∧
        isSuffixList ['A','G'] s = true ∧ e < t) := by
  rw [analyze_sequence, h]
  rcases Nat.lt_or_ge s.length 50 with h1 | h1
  · simp only [if_pos h1, Option.isSome_none, Bool.false_eq_true, false_iff]
    rintro ⟨h50, -⟩
    omega
  · rw [if_neg (by omega)]
    cases hb : ((isPrefixList ['G','T'] s || isPrefixList ['G','U'] s) &&
        isSuffixList ['A','G'] s) with
    | false =>
      simp only [hb, Bool.not_false, if_true, Option.isSome_none,
        Bool.false_eq_true, false_iff]
      rintro ⟨-, hpre, hsuf, -⟩
      rcases hpre with hp | hp <;> simp [hp, hsuf] at hb
    | true =>
      simp only [hb, Bool.not_true, Bool.false_eq_true, if_false]
      by_cases h3 : t ≤ e
      · simp only [if_pos h3, Option.isSome_none, Bool.false_eq_true,
          false_iff]
        rintro ⟨-, -, -, hlt⟩
        exact absurd h3 (not_le.mpr hlt)
      · simp only [if_neg h3, Option.isSome_some, true_iff]
        have hb2 := hb
        simp only [Bool.and_eq_true, Bool.or_eq_true] at hb2
        exact ⟨by omega, hb2.1, hb2.2, not_le.mp h3⟩

/-- Witness for C1 at the spec example: `"GT" + "A"*46 + "AG"` with
oracle energy `-40` is accepted at threshold `-35`, and the same window
with oracle energy `-30` is rejected. -/
theorem analyze_sequence_accepts_iff_wit :
    constOracle ['.'] (-40) exampleWindow = Except.ok (['.'], -40) ∧
    (analyze_sequence (constOracle ['.'] (-40)) exampleWindow
      (-35)).isSome = true ∧
    (analyze_sequence (constOracle ['.'] (-30)) exampleWindow
      (-35)).isSome = false := by
  refine ⟨rfl, ?_, ?_⟩
  · exact (analyze_sequence_accepts_iff (constOracle ['.'] (-40))
      exampleWindow (-35) ['.'] (-40) rfl).mpr (by decide)
  · rw [Bool.eq_false_iff]
    intro hT
    have hr := (analyze_sequence_accepts_iff (constOracle ['.'] (-30))
      exampleWindow (-35) ['.'] (-30) rfl).mp hT
    rcases hr with ⟨-, -, -, hlt⟩
    exact absurd hlt (by decide)

/-- C4: whenever the folding oracle raises on a window, the filter
`analyze_sequence` returns `none` and no exception escapes (the
function is total and yields a rejection). -/
theorem analyze_sequence_oracle_failure (oracle : Oracle) (s : List Char)
    (t : ℚ) (e : Unit) (h : oracle s = Except.error e) :
    analyze_sequence oracle s t = none := by
  rw [analyze_sequence, h]
  split_ifs <;> rfl

/-- Witness for C4: the always-raising oracle rejects the spec example
window. -/
theorem analyze_sequence_oracle_failure_wit :
    failOracle exampleWindow = Except.error () ∧
    analyze_sequence failOracle exampleWindow (-35) = none :=
  ⟨rfl, analyze_sequence_oracle_failure failOracle exampleWindow (-35) ()
    rfl⟩

/-- C3: if the cancellation flag is first observed set after `N`
windows have been processed (false at every earlier poll) and further
windows remain, `process_genome_introns` stops before evaluating window
`N + 1` and returns exactly the candidates accepted among the first `N`
windows of its stream, with the cancellation flag true and `N` windows
processed. -/
theorem process_genome_introns_cancellation (a : GenomeAnalyzer)
    (oracle : Oracle) (cancel : Nat → Bool) (w s : Nat) (p dg : ℚ)
    (mi ma : Nat) (N : Nat)
    (h1 : ∀ k, k < N → cancel k = false) (h2 : cancel N = true)
    (h3 : N < (orchestratorWindows a w s p).length) :
    process_genome_introns a oracle cancel w s p dg mi ma =
      ⟨((orchestratorWindows a w s p).take N).filterMap
        (fun q => analyze_sequence oracle q dg), N, true⟩ := by
  rw [process_genome_introns]
  have h4 := scanLoop_cancel oracle cancel dg N
    (orchestratorWindows a w s p) [] 0
    (fun k hk => by simpa using h1 k hk) (by simpa using h2) h3
  simpa using h4

/-- Witness for C3: on an 8-symbol genome with `window_size = 3` the
orchestrator stream has 5 windows; a flag that turns true after 2
processed windows stops the scan at 2 with the flag set. -/
theorem process_genome_introns_cancellation_wit :
    (∀ k, k < 2 → (fun n => decide (2 ≤ n)) k = false) ∧
    (fun n => decide (2 ≤ n)) 2 = true ∧
    2 < (orchestratorWindows ⟨genome8⟩ 3 1 100).length ∧
    process_genome_introns ⟨genome8⟩ failOracle (fun n => decide (2 ≤ n))
        3 1 100 (-35) 50 150 =
      ⟨((orchestratorWindows ⟨genome8⟩ 3 1 100).take 2).filterMap
        (fun q => analyze_sequence failOracle q (-35)), 2, true⟩ :=
  ⟨by decide, by decide, by decide,
    process_genome_introns_cancellation ⟨genome8⟩ failOracle
      (fun n => decide (2 ≤ n)) 3 1 100 (-35) 50 150 2
      (by decide) (by decide) (by decide)⟩

/-- C9: the scan outcome of `process_genome_introns` (candidates,
processed count and cancellation flag) does not depend on
`min_intron_length` and `max_intron_length`: the source accepts both
parameters but never reads them. -/
theorem intron_length_params_inert (a : GenomeAnalyzer) (oracle : Oracle)
    (cancel : Nat → Bool) (w s : Nat) (p dg : ℚ) (mi1 ma1 mi2 ma2 : Nat) :
    process_genome_introns a oracle cancel w s p dg mi1 ma1 =
      process_genome_introns a oracle cancel w s p dg mi2 ma2 := rfl

/-- C2 (code bug evidence): on the concrete genome `"GTACGTA"` with
`window_size = 3`, `step_size = 1`, full density, the stream evaluated
by `process_genome_introns` is not the stream produced by
`sliding_window`: the generator yields 10 variable-length windows while
the orchestrator slices 4 fixed-length windows and never invokes the
generator. -/
theorem orchestrator_bypasses_generator :
    sliding_window ⟨genome7⟩ 3 1 100 takeChoice ≠
      Except.ok (orchestratorWindows ⟨genome7⟩ 3 1 100) ∧
    Except.map List.length (sliding_window ⟨genome7⟩ 3 1 100 takeChoice) =
      Except.ok 10 ∧
    (orchestratorWindows ⟨genome7⟩ 3 1 100).length = 4 ∧
    process_genome_introns ⟨genome7⟩ failOracle (fun _ => false)
        3 1 100 (-35) 50 150 = ⟨[], 4, false⟩ := by
  refine ⟨by decide, by decide, by decide, by decide⟩

/-- C5 (counterexample): on a 50-symbol genome with
`window_size = 50`, `step_size = 1`, full density, the single base
offset 0 fans out into 0 windows (the generator yields nothing),
whereas the claimed count `min(100, L - offset - w + 1)` equals 1. -/
theorem fanout_count_counterexample :
    swIndices ⟨genome50⟩ 50 1 100 takeChoice = Except.ok [0] ∧
    (fanLengths genome50.length 50 0).length = 0 ∧
    min 100 (genome50.length - 0 - 50 + 1) = 1 ∧
    sliding_window ⟨genome50⟩ 50 1 100 takeChoice = Except.ok [] :=
  ⟨by decide, by decide, by decide, by decide⟩

/-- C5 (amended): in full-density mode with `window_size ≤ length` and
`step_size ≥ 1`, the generator yields exactly the offsets
`range(0, L - w + 1, s)`, i.e. `(L - w + 1 + s - 1) / s` of them, in
strictly increasing order, and each offset `idx` fans out into exactly
`min 100 (L - idx - w)` windows of strictly increasing length (not
`min 100 (L - idx - w + 1)` as claimed). -/
theorem sliding_window_full_density (a : GenomeAnalyzer) (w s : Nat)
    (choice : List Nat → Nat → List Nat)
    (hne : a.sequence ≠ []) (hw : w ≤ a.sequence.length) (hs : 1 ≤ s) :
    swIndices a w s 100 choice =
      Except.ok (fullProgression a.sequence.length w s) ∧
    (fullProgression a.sequence.length w s).length =
      (a.sequence.length - w + 1 + s - 1) / s ∧
    (fullProgression a.sequence.length w s).Pairwise (· < ·) ∧
    ∀ idx ∈ fullProgression a.sequence.length w s,
      (fanLengths a.sequence.length w idx).length =
        min 100 (a.sequence.length - idx - w) ∧
      (fanLengths a.sequence.length w idx).Pairwise (· < ·) := by
  refine ⟨?_, ?_, ?_, ?_⟩
  · rw [swIndices, if_neg hne, if_neg (lt_irrefl (100 : ℚ))]
  · rw [fullProgression, pyRangeStep_length]
    congr 1
    omega
  · exact pyRangeStep_pairwise _ _ hs
  · intro idx hidx
    have hlt : idx < ((a.sequence.length : Int) - w + 1).toNat :=
      mem_pyRangeStep_lt hs hidx
    have hidx2 : idx ≤ a.sequence.length - w := by omega
    constructor
    · rw [fanLengths]
      simp only [List.length_map, List.length_range]
      omega
    · rw [fanLengths, List.pairwise_map]
      exact (List.pairwise_lt_range _).imp fun h => by omega

/-- Witness for C5 (amended) on the 7-symbol genome with
`window_size = 3`, `step_size = 2`. -/
theorem sliding_window_full_density_wit :
    genome7 ≠ [] ∧ 3 ≤ genome7.length ∧ 1 ≤ 2 ∧
    (swIndices ⟨genome7⟩ 3 2 100 takeChoice =
      Except.ok (fullProgression genome7.length 3 2) ∧
    (fullProgression genome7.length 3 2).length =
      (genome7.length - 3 + 1 + 2 - 1) / 2 ∧
    (fullProgression genome7.length 3 2).Pairwise (· < ·) ∧
    ∀ idx ∈ fullProgression genome7.length 3 2,
      (fanLengths genome7.length 3 idx).length =
        min 100 (genome7.length - idx - 3) ∧
      (fanLengths genome7.length 3 idx).Pairwise (· < ·)) :=
  ⟨by decide, by decide, by decide,
    sliding_window_full_density ⟨genome7⟩ 3 2 takeChoice (by decide)
      (by decide) (by decide)⟩

section

attribute [local semireducible] Rat.mul Rat.inv Rat.add Rat.sub

/-- C6 (counterexample): on a 52-symbol genome with `window_size = 50`,
`step_size = 1`, `sample_percentage = 50`, the source computes
`total_windows = 3` and draws `int(3 * 0.5) = 1` offset (truncation),
whereas the claimed count `round(3 * 50/100)` equals 2. -/
theorem sample_size_counterexample :
    swIndices ⟨genome52⟩ 50 1 50 takeChoice = Except.ok [0] ∧
    totalWindowsGen genome52.length 50 1 = 3 ∧
    (sampleSize genome52.length 50 1 50).toNat = 1 ∧
    round ((totalWindowsGen genome52.length 50 1 : ℚ) * (50 / 100)) = 2 :=
  ⟨by decide, by decide, by decide, by decide⟩

end

/-- C6 (amended): in sub-sampled mode with `0 < p < 100`,
`window_size ≤ length`, `step_size ≥ 1` and any draw function
satisfying the numpy `choice(..., replace=False)` contract, the
generator yields exactly `int(total * p/100)` distinct base offsets
(truncation, not `round` as claimed), each drawn without replacement
from the full-density progression `range(0, L - w + 1, s)`. -/
theorem sliding_window_subsampled (a : GenomeAnalyzer) (w s : Nat) (p : ℚ)
    (choice : List Nat → Nat → List Nat)
    (hne : a.sequence ≠ []) (hw : w ≤ a.sequence.length) (hs : 1 ≤ s)
    (hp0 : 0 < p) (hp1 : p < 100) (hc : ValidChoice choice) :
    swIndices a w s p choice = Except.ok
      (choice (fullProgression a.sequence.length w s)
        (sampleSize a.sequence.length w s p).toNat) ∧
    (choice (fullProgression a.sequence.length w s)
        (sampleSize a.sequence.length w s p).toNat).length =
      (sampleSize a.sequence.length w s p).toNat ∧
    (choice (fullProgression a.sequence.length w s)
        (sampleSize a.sequence.length w s p).toNat).Nodup ∧
    ∀ x ∈ choice (fullProgression a.sequence.length w s)
        (sampleSize a.sequence.length w s p).toNat,
      x ∈ fullProgression a.sequence.length w s := by
  have hk := sampleSize_le a.sequence.length w s p hw hs (le_of_lt hp0) hp1
  obtain ⟨hlen, hmem, hnd⟩ := hc _ _ hk
  refine ⟨?_, hlen, hnd (pyRangeStep_nodup _ _ hs), hmem⟩
  rw [swIndices, if_neg hne, if_pos hp1]

/-- Witness for C6 (amended) on the 52-symbol genome with
`window_size = 50`, `step_size = 1`, `sample_percentage = 50`, drawing
with `takeChoice`. -/
theorem sliding_window_subsampled_wit :
    genome52 ≠ [] ∧ 50 ≤ genome52.length ∧ (1:Nat) ≤ 1 ∧
    (0:ℚ) < 50 ∧ (50:ℚ) < 100 ∧ ValidChoice takeChoice ∧
    (swIndices ⟨genome52⟩ 50 1 50 takeChoice = Except.ok
      (takeChoice (fullProgression genome52.length 50 1)
        (sampleSize genome52.length 50 1 50).toNat) ∧
    (takeChoice (fullProgression genome52.length 50 1)
        (sampleSize genome52.length 50 1 50).toNat).length =
      (sampleSize genome52.length 50 1 50).toNat ∧
    (takeChoice (fullProgression genome52.length 50 1)
        (sampleSize genome52.length 50 1 50).toNat).Nodup ∧
    ∀ x ∈ takeChoice (fullProgression genome52.length 50 1)
        (sampleSize genome52.length 50 1 50).toNat,
      x ∈ fullProgression genome52.length 50 1) :=
  ⟨by decide, by decide, by decide, by decide, by decide, takeChoice_valid,
    sliding_window_subsampled ⟨genome52⟩ 50 1 50 takeChoice (by decide)
      (by decide) (by decide) (by decide) (by decide) takeChoice_valid⟩

lemma pyRangeStep_eq_nil {stop : Int} (step : Nat) (hstop : stop ≤ 0) :
    pyRangeStep stop step = [] := by
  rw [pyRangeStep]
  have h0 : stop.toNat = 0 := by omega
  rw [h0]
  have h1 : (0 + step - 1) / step = 0 := by
    rcases Nat.eq_zero_or_pos step with h | h
    · simp [h]
    · exact Nat.div_eq_of_lt (by omega)
  rw [h1]
  rfl

/-- C7 (counterexample): with `window_size = 5` strictly larger than
the 4-symbol genome, the generator raises nothing at all (in
particular no `ConfigurationError`, which does not exist in the
source): it succeeds and yields an empty stream. -/
theorem no_configuration_error_counterexample :
    sliding_window ⟨genome4⟩ 5 1 100 takeChoice = Except.ok [] ∧
    swIndices ⟨genome4⟩ 5 1 100 takeChoice = Except.ok [] :=
  ⟨by decide, by decide⟩

/-- C7 (amended): `sliding_window` performs no parameter validation.
With `window_size > sequence_length` in full-density mode it succeeds
with an empty stream; with `sample_percentage = 0` it succeeds with an
empty stream; the only error it raises is the no-genome-loaded error,
raised exactly when the sequence is empty. -/
theorem sliding_window_no_validation (a : GenomeAnalyzer) (w s : Nat)
    (choice : List Nat → Nat → List Nat) (hc : ValidChoice choice) :
    (a.sequence ≠ [] → a.sequence.length < w →
      sliding_window a w s 100 choice = Except.ok []) ∧
    (a.sequence ≠ [] → sliding_window a w s 0 choice = Except.ok []) ∧
    (a.sequence = [] →
      sliding_window a w s 100 choice = Except.error "No genome loaded") := by
  refine ⟨?_, ?_, ?_⟩
  · intro hne hwL
    rw [sliding_window, swIndices, if_neg hne, if_neg (lt_irrefl (100 : ℚ))]
    rw [fullProgression, pyRangeStep_eq_nil s (by omega)]
    rfl
  · intro hne
    rw [sliding_window, swIndices, if_neg hne,
      if_pos (by norm_num : (0:ℚ) < 100)]
    have hss : sampleSize a.sequence.length w s 0 = 0 := by
      rw [sampleSize, pyInt]
      rw [zero_div, mul_zero, if_neg (lt_irrefl (0 : ℚ))]
      exact Int.floor_zero
    rw [hss]
    have hchoice : choice (fullProgression a.sequence.length w s)
        ((0 : Int)).toNat = [] := by
      have h0 := (hc (fullProgression a.sequence.length w s) 0
        (Nat.zero_le _)).1
      exact List.length_eq_zero.mp h0
    rw [hchoice]
    rfl
  · intro hemp
    rw [sliding_window, swIndices, if_pos hemp]
    rfl

/-- Witness for C7 (amended) on the 4-symbol genome with
`window_size = 5`, `step_size = 1`. -/
theorem sliding_window_no_validation_wit :
    ValidChoice takeChoice ∧
    ((genome4 ≠ [] → genome4.length < 5 →
      sliding_window ⟨genome4⟩ 5 1 100 takeChoice = Except.ok []) ∧
    (genome4 ≠ [] → sliding_window ⟨genome4⟩ 5 1 0 takeChoice =
      Except.ok []) ∧
    (genome4 = [] → sliding_window ⟨genome4⟩ 5 1 100 takeChoice =
      Except.error "No genome loaded")) :=
  ⟨takeChoice_valid,
    sliding_window_no_validation ⟨genome4⟩ 5 1 takeChoice takeChoice_valid⟩

/-- C8 (counterexample): on the sequence `"TGCATGTCCTC"` the annotator
records the `TCCTC` silencer (position 6) before the `TGCATG` silencer
(position 0), because the list is built motif by motif — so the
`silencers` list is not ordered by ascending start position. -/
theorem silencer_order_counterexample :
    ((analyze_sequence_patterns silencerSeq).silencers).map
      MotifHit.position = [6, 0] ∧
    ¬ List.Pairwise (· ≤ ·)
      (((analyze_sequence_patterns silencerSeq).silencers).map
        MotifHit.position) :=
  ⟨by decide, by decide⟩

/-- C8 (amended): within each single motif the recorded positions are
strictly increasing (the lists are sorted blockwise, per motif, not
globally), the GC-rich list is globally sorted by strictly increasing
position, and no list contains two entries sharing both position and
pattern. -/
theorem pattern_lists_blockwise_sorted_nodup (seq0 : List Char) :
    (∀ motif : List Char,
      (find_motif_positions (normalizeSeq seq0) motif).Pairwise (· < ·)) ∧
    (((analyze_sequence_patterns seq0).gc_rich_regions).map
      GCRegion.position).Pairwise (· < ·) ∧
    (((analyze_sequence_patterns seq0).branch_points).map
      (fun x => (x.position, x.sequence))).Nodup ∧
    (((analyze_sequence_patterns seq0).enhancers).map
      (fun x => (x.position, x.sequence))).Nodup ∧
    (((analyze_sequence_patterns seq0).silencers).map
      (fun x => (x.position, x.sequence))).Nodup ∧
    (((analyze_sequence_patterns seq0).gc_rich_regions).map
      GCRegion.position).Nodup := by
  refine ⟨?_, ?_, ?_, ?_, ?_, ?_⟩
  · intro motif
    exact find_motif_positions_pairwise _ _
  · rw [patterns_gc_rich_regions]
    exact gcRichRegions_positions_pairwise _
  · rw [patterns_branch_points]
    exact motifHits_pairs_nodup _ _ (by decide)
  · rw [patterns_enhancers]
    exact motifHits_pairs_nodup _ _ (by decide)
  · rw [patterns_silencers]
    exact motifHits_pairs_nodup _ _ (by decide)
  · rw [patterns_gc_rich_regions]
    exact (gcRichRegions_positions_pairwise _).imp fun h => Nat.ne_of_lt h

lemma normalize_ne_Y {seq0 : List Char}
    (h : ∀ c ∈ seq0, c ∈ nucleotide_alphabet) :
    ('Y' : Char) ∉ normalizeSeq seq0 := by
  intro hmem
  rw [normalizeSeq] at hmem
  rcases List.mem_map.mp hmem with ⟨b, hb, hbeq⟩
  rcases List.mem_map.mp hb with ⟨c, hcmem, rfl⟩
  have hc := h c hcmem
  simp only [nucleotide_alphabet, List.mem_cons, List.not_mem_nil,
    or_false] at hc
  rcases hc with rfl | rfl | rfl | rfl | rfl | rfl | rfl | rfl | rfl | rfl <;>
    exact absurd hbeq (by decide)

/-- C10: on any input over the nucleotide alphabet `{A,C,G,T,U}` (any
case), every branch-point motif contains the letter `Y`, which literal
matching can never find after normalisation to `{A,C,G,T}`, so
`branch_points` is empty, the `enhancers` list reduces to the `GGAGG`
matches alone, and every candidate built by the filter reports a
branch-point count of 0. -/
theorem branch_points_empty_on_nucleotides (seq0 : List Char)
    (h : ∀ c ∈ seq0, c ∈ nucleotide_alphabet) :
    (analyze_sequence_patterns seq0).branch_points = [] ∧
    (analyze_sequence_patterns seq0).enhancers =
      motifHits (normalizeSeq seq0) [['G','G','A','G','G']] ∧
    ∀ (oracle : Oracle) (t : ℚ) (c : Candidate),
      analyze_sequence oracle seq0 t = some c → c.branch_points = 0 := by
  have hY := normalize_ne_Y h
  have hbp : (analyze_sequence_patterns seq0).branch_points = [] := by
    rw [patterns_branch_points, motifHits]
    have h1 := @find_motif_positions_eq_nil (normalizeSeq seq0)
      ['Y','N','Y','T','R','A','Y'] 'Y' (by decide) hY
    have h2 := @find_motif_positions_eq_nil (normalizeSeq seq0)
      ['Y','N','Y','Y','R','A','Y'] 'Y' (by decide) hY
    have h3 := @find_motif_positions_eq_nil (normalizeSeq seq0)
      ['Y','N','C','T','R','A','C'] 'Y' (by decide) hY
    simp [branch_point_motifs, h1, h2, h3]
  have hen : (analyze_sequence_patterns seq0).enhancers =
      motifHits (normalizeSeq seq0) [['G','G','A','G','G']] := by
    rw [patterns_enhancers, motifHits, motifHits]
    have h4 := @find_motif_positions_eq_nil (normalizeSeq seq0)
      ['Y','Y','Y','Y','Y','Y','Y','Y','Y','Y'] 'Y' (by decide) hY
    simp [enhancer_motifs, h4]
  refine ⟨hbp, hen, ?_⟩
  intro oracle t c hsome
  rw [analyze_sequence] at hsome
  split_ifs at hsome with h1 h2
  rcases horacle : oracle seq0 with e | pair
  · rw [horacle] at hsome
    cases hsome
  · rw [horacle] at hsome
    rcases pair with ⟨st, mfe⟩
    dsimp only at hsome
    split_ifs at hsome with h3
    have hc2 := Option.some.inj hsome
    rw [← hc2]
    show (analyze_sequence_patterns seq0).branch_points.length = 0
    rw [hbp]
    rfl

/-- Witness for C10 on the mixed-case sequence `"GGAGGacgtUuT"`. -/
theorem branch_points_empty_on_nucleotides_wit :
    (∀ c ∈ nucleotideSeq, c ∈ nucleotide_alphabet) ∧
    ((analyze_sequence_patterns nucleotideSeq).branch_points = [] ∧
    (analyze_sequence_patterns nucleotideSeq).enhancers =
      motifHits (normalizeSeq nucleotideSeq) [['G','G','A','G','G']] ∧
    ∀ (oracle : Oracle) (t : ℚ) (c : Candidate),
      analyze_sequence oracle nucleotideSeq t = some c →
        c.branch_points = 0) :=
  ⟨by decide, branch_points_empty_on_nucleotides nucleotideSeq (by decide)⟩

end RnaApp
